import Mathlib

/-!
Verification of the vector-service search endpoint
(`CS50x/Backend/vector-service/app.py`).

Modelling conventions (exact-arithmetic shallow embedding):

* Request floats are modelled by the inductive `F`: a finite value is an
  exact rational, and the three non-finite IEEE shapes (`inf`, `neginf`,
  `nan`) are explicit constructors.  `float32` rounding is not modelled;
  all arithmetic is exact.
* `np.linalg.norm(q) == 0` holds exactly when the sum of squares is `0`,
  so the zero-norm guard on line 84 is rendered as `normSq q = 0`, which
  stays inside the rationals.  The unit-norm property of the normalized
  vector `q / norm` is stated and proved over the reals, with the
  Euclidean norm written as `Real.sqrt (normSq q)`.
* The FAISS index is opaque: `_INDEX.search(q, k)` is a black-box
  function producing the zipped rows of `distances[0]` and `indices[0]`.
  Since normalization divides by a possibly irrational norm, the model
  treats the composition of normalization and index search as one opaque
  function `IndexFn` of the raw finite query and `k`; every theorem
  quantifies over its output, and the FAISS output contract (exactly `k`
  rows, scores non-increasing) appears as an explicit hypothesis where a
  claim relies on it.
* Parsed JSON is the inductive `Json`; `json.loads` keeps at most one
  binding per key, so objects are association lists looked up by first
  match.
* `HTTPException(status, detail)` is the structure `Err`; an uncaught
  Python exception surfaces as FastAPI's generic
  `500 Internal Server Error`.
* File I/O is abstracted: `_load_assets` receives `none` for a missing
  file and the already-parsed metadata document otherwise.
-/

namespace VectorService

/-- Parsed JSON values, as produced by `json.loads`.  Objects are
association lists with at most one binding per key. -/
inductive Json where
  | null : Json
  | bool : Bool → Json
  | num : ℚ → Json
  | str : String → Json
  | arr : List Json → Json
  | obj : List (String × Json) → Json

/-- Dictionary lookup `d.get(key)` on a parsed JSON object. -/
def objGet (fs : List (String × Json)) (k : String) : Option Json :=
  match fs with
  | [] => none
  | (k', v) :: rest => if k' = k then some v else objGet rest k

/-- Lookup `j.get(key)` when `j` is the parsed metadata document (the
handler only calls it on dictionaries). -/
def Json.get (j : Json) (k : String) : Option Json :=
  match j with
  | Json.obj fs => objGet fs k
  | _ => none

/-- One request float after `np.asarray(req.vector, dtype=np.float32)`:
either a finite value (an exact rational) or a non-finite IEEE value. -/
inductive F where
  | fin : ℚ → F
  | inf : F
  | neginf : F
  | nan : F

/-- Test `np.isfinite` on one entry. -/
def F.isFinite : F → Bool
  | F.fin _ => true
  | _ => false

/-- Rational value of a finite entry.  Non-finite entries map to the junk
value `0`, which the handler never reads: the `np.isfinite` guard on
line 79 precedes every arithmetic use of the vector. -/
def F.toRat : F → ℚ
  | F.fin q => q
  | _ => 0

/-- Squared Euclidean norm.  In exact arithmetic `np.linalg.norm(q) == 0`
holds iff `normSq q = 0`, which is how the guard on line 84 is rendered
without leaving the rationals. -/
def normSq (q : List ℚ) : ℚ := (q.map (fun x => x * x)).sum

/-- Request body `SearchRequest`: `vector: list[float]`, `topK: int`. -/
structure SearchRequest where
  vector : List F
  topK : Int

/-- Pydantic field constraint `topK: int = Field(50, ge=1, le=200)`
(line 24).  FastAPI rejects a violating body with a 422 response before
the handler runs. -/
def SearchRequest.validTopK (r : SearchRequest) : Bool :=
  decide (1 ≤ r.topK ∧ r.topK ≤ 200)

/-- The payload of an `HTTPException`: status code and detail message. -/
structure Err where
  status : Nat
  detail : String

/-- One entry of the `results` array (lines 96-109): eight metadata
fields, each absent key surfacing as JSON null (`none` here), and the
score under its two keys. -/
structure ResultItem where
  imdbId : Option Json
  id : Option Json
  title : Option Json
  year : Option Json
  genre : Option Json
  productionCountry : Option Json
  keywords : Option Json
  moodTags : Option Json
  score : ℚ
  similarity : ℚ

/-- The opaque FAISS index: given the finite query vector (before the
division by its norm, see the module comment) and `k`, produce the zipped
`(score, position)` rows of `distances[0]` and `indices[0]`. -/
def IndexFn : Type := List ℚ → Nat → List (ℚ × Int)

/-- One iteration of the result loop (lines 92-109): a position outside
the catalog is skipped (`continue`); otherwise the metadata record — an
empty dictionary if the catalog entry is not a JSON object — is joined
with the score, the score appearing under both `score` and
`similarity`. -/
def rowToResult (items : List Json) (score : ℚ) (idx : Int) : Option ResultItem :=
  if idx < 0 ∨ (items.length : Int) ≤ idx then none
  else
    let m : List (String × Json) :=
      match items[idx.toNat]? with
      | some (Json.obj fs) => fs
      | _ => []
    some
      { imdbId := objGet m "imdbId"
        id := objGet m "id"
        title := objGet m "title"
        year := objGet m "year"
        genre := objGet m "genre"
        productionCountry := objGet m "productionCountry"
        keywords := objGet m "keywords"
        moodTags := objGet m "moodTags"
        score := score
        similarity := score }

/-- Python truthiness of a JSON value, needed for
`_META.get("dim") or 0`. -/
def jsonTruthy : Json → Bool
  | Json.null => false
  | Json.bool b => b
  | Json.num q => decide (q ≠ 0)
  | Json.str s => decide (s ≠ "")
  | Json.arr xs => !xs.isEmpty
  | Json.obj fs => !fs.isEmpty

/-- Python `int(v)` on a JSON value: truncation toward zero on numbers,
`True`/`False` to `1`/`0`.  `none` stands for a raised
`TypeError`/`ValueError`; parsing of numeric strings is not modelled (no
claim reaches that case, and the build pipeline writes `dim` as an
integer). -/
def pyInt : Json → Option Int
  | Json.bool b => some (if b then 1 else 0)
  | Json.num q => some (Int.tdiv q.num (q.den : Int))
  | _ => none

/-- Line 72, `dim = int(_META.get("dim") or 0)`: a missing or falsy value
collapses to `0`; otherwise the value is converted by `int`. -/
def getDim (meta : Json) : Option Int :=
  match meta.get "dim" with
  | none => some 0
  | some v => if jsonTruthy v then pyInt v else some 0

/-- Line 88, `k = int(min(max(1, req.topK), len(items)))`. -/
def effectiveK (topK : Int) (catalog : Nat) : Nat :=
  (min (max 1 topK) (catalog : Int)).toNat

/-- The `/search` handler body (lines 64-111).  `index` and `meta` are
the process-wide `_INDEX` and `_META` globals, `none` before a successful
startup.  The returned list is the `results` field of the response. -/
def search (index : Option IndexFn) (meta : Option Json) (req : SearchRequest) :
    Except Err (List ResultItem) :=
  match index, meta with
  | some ix, some m =>
    match m.get "items" with
    | some (Json.arr items) =>
      match getDim m with
      | none => Except.error ⟨500, "Internal Server Error"⟩
      | some dim =>
        if dim ≤ 0 then Except.error ⟨500, "Invalid vector dim in meta.json"⟩
        else if (req.vector.length : Int) ≠ dim then
          Except.error ⟨400, s!"vector must have length {dim}"⟩
        else if req.vector.all F.isFinite = false then
          Except.error ⟨400, "vector contains non-finite values"⟩
        else
          let q := req.vector.map F.toRat
          if normSq q = 0 then Except.error ⟨400, "vector norm is 0"⟩
          else
            Except.ok
              ((ix q (effectiveK req.topK items.length)).filterMap
                (fun p => rowToResult items p.1 p.2))
    | _ => Except.error ⟨500, "Invalid meta.json"⟩
  | _, _ => Except.error ⟨500, "Index not loaded"⟩

/-- FastAPI request dispatch for `POST /search`: pydantic validates the
`topK` bounds and rejects a violating body with a 422 before the handler
is invoked. -/
def handle (index : Option IndexFn) (meta : Option Json) (req : SearchRequest) :
    Except Err (List ResultItem) :=
  if req.validTopK then search index meta req
  else Except.error ⟨422, "Unprocessable Entity"⟩

/-- The check on line 41: the parsed document is a dictionary and
`"items" in meta` holds (key presence only — the value is not inspected
here). -/
def metaWellFormed (meta : Json) : Bool :=
  match meta with
  | Json.obj fs => (objGet fs "items").isSome
  | _ => false

/-- The predicate the specification words for the startup validation
describe: a JSON object containing an `items` array.  Declared separately
from `metaWellFormed` (the check the source performs) so the two can be
compared. -/
def hasItemsArray (meta : Json) : Bool :=
  match meta.get "items" with
  | some (Json.arr _) => true
  | _ => false

/-- Function `_load_assets` (lines 27-43) after abstracting I/O: each
file argument is `none` when the file is missing; the metadata file
arrives already parsed (a JSON parse error also raises and prevents
startup, and is not modelled separately). -/
def loadAssets (indexFile : Option IndexFn) (metaFile : Option Json) :
    Except String (IndexFn × Json) :=
  match indexFile, metaFile with
  | some ix, some meta =>
    if metaWellFormed meta then Except.ok (ix, meta)
    else Except.error "meta.json must be an object with an \x27items\x27 field"
  | _, _ =>
    Except.error
      "Missing index assets (faiss.index/meta.json). Run: python build_index.py (in vector-service/)"

/-- The `_startup` hook: the pair of globals after startup, or `none`
(Uninitialized) when `_load_assets` raised — in which case the process
fails to come up and no traffic is accepted. -/
def startupState (indexFile : Option IndexFn) (metaFile : Option Json) :
    Option (IndexFn × Json) :=
  (loadAssets indexFile metaFile).toOption

/-- Serve one request against the post-startup state: in the
Uninitialized state both globals are still `None`. -/
def serve (st : Option (IndexFn × Json)) (req : SearchRequest) :
    Except Err (List ResultItem) :=
  match st with
  | some (ix, m) => search (some ix) (some m) req
  | none => search none none req

/-- A searcher position lying inside the catalog: the complement of the
skip condition on line 93. -/
def posInRange (catalog : Nat) (p : ℚ × Int) : Bool :=
  decide (0 ≤ p.2 ∧ p.2 < (catalog : Int))

/-! Concrete fixtures used to exercise the model at specific inputs. -/

/-- An index whose every row scores `1` at position `0`: it satisfies the
FAISS output contract (exactly `k` rows, non-increasing scores). -/
def ixConst : IndexFn := fun _ k => List.replicate k (1, 0)

/-- An index that returns one valid row and one `-1` sentinel row, as
FAISS does for an unfilled slot. -/
def ixSentinel : IndexFn := fun _ _ => [(5, 0), (3, -1)]

/-- An index that hits position `0` with score `2`. -/
def ixHitZero : IndexFn := fun _ _ => [(2, 0)]

/-- A metadata document with one catalog item and dimension `1`. -/
def metaOne : Json := Json.obj [("items", Json.arr [Json.null]), ("dim", Json.num 1)]

/-- A metadata document whose single catalog item is a bare number, not a
JSON object. -/
def metaNonDict : Json := Json.obj [("items", Json.arr [Json.num 7]), ("dim", Json.num 1)]

/-- A metadata document with a ten-item catalog and dimension `1`. -/
def metaTen : Json :=
  Json.obj [("items", Json.arr (List.replicate 10 Json.null)), ("dim", Json.num 1)]

/-- A metadata document whose `items` field is present but is a number,
not an array. -/
def metaBadItems : Json := Json.obj [("items", Json.num 5)]

/-- A well-formed one-entry request. -/
def reqOne : SearchRequest := ⟨[F.fin 1], 1⟩

/-- The all-nulls result row carrying score `s`. -/
def nullRow (s : ℚ) : ResultItem :=
  ⟨none, none, none, none, none, none, none, none, s, s⟩

/-! Basic facts about the squared norm and the normalized vector. -/

theorem normSq_nonneg (q : List ℚ) : 0 ≤ normSq q := by
  induction q with
  | nil => simp [normSq]
  | cons a t ih =>
    simp only [normSq, List.map_cons, List.sum_cons] at ih ⊢
    exact add_nonneg (mul_self_nonneg a) ih

theorem normSq_cast (q : List ℚ) :
    ((normSq q : ℚ) : ℝ) = (q.map (fun x : ℚ => (x : ℝ) * (x : ℝ))).sum := by
  induction q with
  | nil => simp [normSq]
  | cons a t ih =>
    simp only [normSq, List.map_cons, List.sum_cons] at ih ⊢
    rw [Rat.cast_add, Rat.cast_mul, ih]

theorem sum_sq_div (q : List ℚ) (c : ℝ) :
    (q.map (fun x : ℚ => ((x : ℝ) / c) * ((x : ℝ) / c))).sum
      = (q.map (fun x : ℚ => (x : ℝ) * (x : ℝ))).sum / (c * c) := by
  induction q with
  | nil => simp
  | cons a t ih =>
    simp only [List.map_cons, List.sum_cons]
    rw [ih, div_mul_div_comm, div_add_div_same]

/-- C2: for every finite query vector with nonzero Euclidean norm, the
normalizer's output — the elementwise division of the vector by its
Euclidean norm `Real.sqrt (normSq q)` — has squared norm `1` and hence
Euclidean norm `1` (exactly, in the exact-arithmetic model; the source
achieves this within floating-point tolerance). -/
theorem normalize_unit_norm (q : List ℚ) (h : normSq q ≠ 0)
    (nrm : ℝ) (hn : nrm = Real.sqrt ((normSq q : ℚ) : ℝ)) :
    (q.map (fun x : ℚ => ((x : ℝ) / nrm) * ((x : ℝ) / nrm))).sum = 1 ∧
    Real.sqrt ((q.map (fun x : ℚ => ((x : ℝ) / nrm) * ((x : ℝ) / nrm))).sum) = 1 := by
  have h0 : 0 < normSq q := lt_of_le_of_ne (normSq_nonneg q) (Ne.symm h)
  have hR : (0 : ℝ) < ((normSq q : ℚ) : ℝ) := by exact_mod_cast h0
  have hsq : nrm * nrm = ((normSq q : ℚ) : ℝ) := by
    rw [hn]; exact Real.mul_self_sqrt hR.le
  have hsum : (q.map (fun x : ℚ => ((x : ℝ) / nrm) * ((x : ℝ) / nrm))).sum = 1 := by
    rw [sum_sq_div q nrm, ← normSq_cast q, hsq]
    exact div_self (ne_of_gt hR)
  exact ⟨hsum, by rw [hsum]; exact Real.sqrt_one⟩

theorem normalize_unit_norm_witness :
    normSq [(1 : ℚ)] ≠ 0 ∧
    (([(1 : ℚ)].map (fun x : ℚ =>
        ((x : ℝ) / Real.sqrt ((normSq [(1 : ℚ)] : ℚ) : ℝ)) *
        ((x : ℝ) / Real.sqrt ((normSq [(1 : ℚ)] : ℚ) : ℝ)))).sum = 1 ∧
      Real.sqrt (([(1 : ℚ)].map (fun x : ℚ =>
        ((x : ℝ) / Real.sqrt ((normSq [(1 : ℚ)] : ℚ) : ℝ)) *
        ((x : ℝ) / Real.sqrt ((normSq [(1 : ℚ)] : ℚ) : ℝ)))).sum) = 1) :=
  ⟨by simp [normSq], normalize_unit_norm [1] (by simp [normSq]) _ rfl⟩

/-! Facts about the result loop and the handler's success path. -/

theorem rowToResult_skip (items : List Json) (p : ℚ × Int)
    (h : posInRange items.length p = false) :
    rowToResult items p.1 p.2 = none := by
  simp only [posInRange, decide_eq_false_iff_not, not_and, not_lt] at h
  unfold rowToResult
  rw [if_pos]
  omega

theorem rowToResult_emit (items : List Json) (p : ℚ × Int)
    (h : posInRange items.length p = true) :
    ∃ r, rowToResult items p.1 p.2 = some r ∧ r.score = p.1 ∧ r.similarity = p.1 := by
  simp only [posInRange, decide_eq_true_eq] at h
  unfold rowToResult
  rw [if_neg (by omega)]
  exact ⟨_, rfl, rfl, rfl⟩

theorem rowToResult_score (items : List Json) (s : ℚ) (i : Int) (r : ResultItem)
    (h : rowToResult items s i = some r) : r.score = s ∧ r.similarity = s := by
  unfold rowToResult at h
  split at h
  · exact absurd h (by simp)
  · injection h with h
    subst h
    exact ⟨rfl, rfl⟩

theorem rowToResult_nondict (items : List Json) (s : ℚ) (i : Int)
    (h0 : 0 ≤ i) (h1 : i < (items.length : Int))
    (hnd : ∀ fs, items[i.toNat]? ≠ some (Json.obj fs)) :
    rowToResult items s i = some (nullRow s) := by
  unfold rowToResult
  rw [if_neg (by omega)]
  cases hv : items[i.toNat]? with
  | none => rfl
  | some v =>
    cases v with
    | obj fs => exact absurd hv (hnd fs)
    | null => rfl
    | bool b => rfl
    | num q => rfl
    | str t => rfl
    | arr xs => rfl

theorem scores_sublist (items : List Json) (pairs : List (ℚ × Int)) :
    List.Sublist
      ((pairs.filterMap (fun p => rowToResult items p.1 p.2)).map (fun r => r.score))
      (pairs.map Prod.fst) := by
  induction pairs with
  | nil => simp
  | cons p t ih =>
    rw [List.filterMap_cons, List.map_cons]
    cases hr : rowToResult items p.1 p.2 with
    | none => exact ih.cons p.1
    | some r =>
      rw [List.map_cons, (rowToResult_score items p.1 p.2 r hr).1]
      exact ih.cons₂ p.1

theorem scores_filter (items : List Json) (pairs : List (ℚ × Int)) :
    (pairs.filterMap (fun p => rowToResult items p.1 p.2)).map (fun r => r.score)
      = (pairs.filter (posInRange items.length)).map Prod.fst := by
  induction pairs with
  | nil => simp
  | cons p t ih =>
    rw [List.filterMap_cons, List.filter_cons]
    cases hp : posInRange items.length p with
    | false =>
      rw [rowToResult_skip items p hp]
      simpa using ih
    | true =>
      obtain ⟨r, hr, hs, _⟩ := rowToResult_emit items p hp
      rw [hr]
      simp only [List.map_cons, ih, hs, if_pos]

theorem effectiveK_min (t : Int) (n : Nat) (h : 1 ≤ t) :
    effectiveK t n = min t.toNat n := by
  unfold effectiveK
  omega

theorem search_ok (ix : IndexFn) (m : Json) (items : List Json) (req : SearchRequest)
    (d : Int)
    (hitems : m.get "items" = some (Json.arr items))
    (hdim : getDim m = some d) (hdpos : 0 < d)
    (hlen : (req.vector.length : Int) = d)
    (hfin : req.vector.all F.isFinite = true)
    (hnz : normSq (req.vector.map F.toRat) ≠ 0) :
    search (some ix) (some m) req =
      Except.ok ((ix (req.vector.map F.toRat) (effectiveK req.topK items.length)).filterMap
        (fun p => rowToResult items p.1 p.2)) := by
  simp only [search, hitems, hdim]
  rw [if_neg (by omega), if_neg (by omega), if_neg (by simp [hfin]), if_neg hnz]

theorem search_ok_inv {index : Option IndexFn} {meta : Option Json}
    {req : SearchRequest} {rs : List ResultItem}
    (h : search index meta req = Except.ok rs) :
    ∃ ix m items, index = some ix ∧ meta = some m ∧
      m.get "items" = some (Json.arr items) ∧
      rs = (ix (req.vector.map F.toRat) (effectiveK req.topK items.length)).filterMap
        (fun p => rowToResult items p.1 p.2) := by
  cases index with
  | none => simp [search] at h
  | some ix =>
    cases meta with
    | none => simp [search] at h
    | some m =>
      simp only [search] at h
      split at h
      next items heq =>
        split at h
        next => exact Except.noConfusion h
        next d heq2 =>
          split at h
          next => exact Except.noConfusion h
          next =>
            split at h
            next => exact Except.noConfusion h
            next =>
              split at h
              next => exact Except.noConfusion h
              next =>
                split at h
                next => exact Except.noConfusion h
                next =>
                  injection h with h
                  exact ⟨ix, m, items, rfl, rfl, heq, h.symm⟩
      next => exact Except.noConfusion h

/-- C1: for a search request served in the Ready state (the handler
returned a results list), under the FAISS output contract — the index
returns exactly `k` rows, ranked by non-increasing score — the results
list has length at most `min topK (catalog size)`, is itself ordered by
non-increasing score, and its scores are a subsequence of the searcher's
ranked scores, i.e. the rank order of the Searcher is preserved. -/
theorem search_results_length_and_order
    (ix : IndexFn) (m : Json) (items : List Json) (req : SearchRequest)
    (rs : List ResultItem)
    (hitems : m.get "items" = some (Json.arr items))
    (htk : 1 ≤ req.topK)
    (hxlen : ∀ v k, (ix v k).length = k)
    (hord : ∀ v k, ((ix v k).map Prod.fst).Pairwise (· ≥ ·))
    (hok : search (some ix) (some m) req = Except.ok rs) :
    rs.length ≤ min req.topK.toNat items.length ∧
    rs.Pairwise (fun a b => b.score ≤ a.score) ∧
    List.Sublist (rs.map (fun r => r.score))
      ((ix (req.vector.map F.toRat) (effectiveK req.topK items.length)).map Prod.fst) := by
  obtain ⟨ix', m', items', hix, hm, hitems', hrs⟩ := search_ok_inv hok
  injection hix with hix
  injection hm with hm
  subst hix
  subst hm
  rw [hitems] at hitems'
  injection hitems' with hitems'
  injection hitems' with hitems'
  subst hitems'
  subst hrs
  refine ⟨?_, ?_, scores_sublist items _⟩
  · have h1 := List.length_filterMap_le (fun p => rowToResult items p.1 p.2)
      (ix (req.vector.map F.toRat) (effectiveK req.topK items.length))
    rw [hxlen (req.vector.map F.toRat) (effectiveK req.topK items.length)] at h1
    exact h1.trans (le_of_eq (effectiveK_min _ _ htk))
  · have hp := (hord (req.vector.map F.toRat) (effectiveK req.topK items.length)).sublist
      (scores_sublist items _)
    rw [List.pairwise_map] at hp
    exact hp

theorem search_results_length_and_order_witness :
    [nullRow 1].length ≤ min reqOne.topK.toNat [Json.null].length ∧
    [nullRow 1].Pairwise (fun a b => b.score ≤ a.score) ∧
    List.Sublist ([nullRow 1].map (fun r => r.score))
      ((ixConst (reqOne.vector.map F.toRat)
        (effectiveK reqOne.topK [Json.null].length)).map Prod.fst) := by
  have hok : search (some ixConst) (some metaOne) reqOne = Except.ok [nullRow 1] := by
    have h := search_ok ixConst metaOne [Json.null] reqOne 1 rfl rfl (by decide) rfl rfl
      (by simp [reqOne, F.toRat, normSq])
    exact h.trans (by rfl)
  exact search_results_length_and_order ixConst metaOne [Json.null] reqOne [nullRow 1]
    rfl (by decide) (fun v k => by simp [ixConst])
    (fun v k => by
      simp only [ixConst, List.map_replicate]
      exact List.pairwise_replicate.mpr (Or.inr le_rfl))
    hok

/-- C3: a Ready-state request whose finite query vector has zero
Euclidean norm (equivalently, zero sum of squares) is rejected with the
400 zero-norm client error; the conclusion holds for every index function
`ix` uniformly, so the index search is never consulted. -/
theorem zero_norm_rejected
    (ix : IndexFn) (m : Json) (items : List Json) (req : SearchRequest) (d : Int)
    (hitems : m.get "items" = some (Json.arr items))
    (hdim : getDim m = some d) (hdpos : 0 < d)
    (hlen : (req.vector.length : Int) = d)
    (hfin : req.vector.all F.isFinite = true)
    (hz : normSq (req.vector.map F.toRat) = 0) :
    search (some ix) (some m) req = Except.error ⟨400, "vector norm is 0"⟩ := by
  simp only [search, hitems, hdim]
  rw [if_neg (by omega), if_neg (by omega), if_neg (by simp [hfin]), if_pos hz]

theorem zero_norm_rejected_witness :
    search (some ixConst) (some metaOne) ⟨[F.fin 0], 1⟩ =
      Except.error ⟨400, "vector norm is 0"⟩ :=
  zero_norm_rejected ixConst metaOne [Json.null] ⟨[F.fin 0], 1⟩ 1
    rfl rfl (by decide) rfl rfl (by simp [F.toRat, normSq])

/-- C4: a Ready-state request whose query vector length differs from the
declared dimension is rejected with a 400 client error whose message
names the expected length `d`. -/
theorem wrong_length_rejected
    (ix : IndexFn) (m : Json) (items : List Json) (req : SearchRequest) (d : Int)
    (hitems : m.get "items" = some (Json.arr items))
    (hdim : getDim m = some d) (hdpos : 0 < d)
    (hlen : (req.vector.length : Int) ≠ d) :
    search (some ix) (some m) req =
      Except.error ⟨400, s!"vector must have length {d}"⟩ := by
  simp only [search, hitems, hdim]
  rw [if_neg (by omega), if_pos hlen]

theorem wrong_length_rejected_witness :
    search (some ixConst) (some metaOne) ⟨[F.fin 1, F.fin 2], 1⟩ =
      Except.error ⟨400, s!"vector must have length {(1 : Int)}"⟩ :=
  wrong_length_rejected ixConst metaOne [Json.null] ⟨[F.fin 1, F.fin 2], 1⟩ 1
    rfl rfl (by decide) (by decide)

/-- C5: a Ready-state request whose query vector contains a non-finite
entry is rejected with a 400 client error raised by one of the two checks
that precede normalization (the length check and the finiteness check);
in particular the zero-norm branch, the only one past the norm
computation, is never the source of the error. -/
theorem nonfinite_rejected
    (ix : IndexFn) (m : Json) (items : List Json) (req : SearchRequest) (d : Int)
    (hitems : m.get "items" = some (Json.arr items))
    (hdim : getDim m = some d) (hdpos : 0 < d)
    (hx : ∃ x ∈ req.vector, x.isFinite = false) :
    ∃ e, search (some ix) (some m) req = Except.error e ∧ e.status = 400 ∧
      (e.detail = s!"vector must have length {d}" ∨
        e.detail = "vector contains non-finite values") := by
  have hnf : req.vector.all F.isFinite = false := by
    rcases hx with ⟨x, hmem, hxf⟩
    exact List.all_eq_false.mpr ⟨x, hmem, by simp [hxf]⟩
  by_cases hlen : (req.vector.length : Int) = d
  · refine ⟨⟨400, "vector contains non-finite values"⟩, ?_, rfl, Or.inr rfl⟩
    simp only [search, hitems, hdim]
    rw [if_neg (by omega), if_neg (by omega), if_pos hnf]
  · refine ⟨⟨400, s!"vector must have length {d}"⟩, ?_, rfl, Or.inl rfl⟩
    simp only [search, hitems, hdim]
    rw [if_neg (by omega), if_pos hlen]

theorem nonfinite_rejected_witness :
    ∃ e, search (some ixConst) (some metaOne) ⟨[F.inf], 1⟩ = Except.error e ∧
      e.status = 400 ∧
      (e.detail = s!"vector must have length {(1 : Int)}" ∨
        e.detail = "vector contains non-finite values") :=
  nonfinite_rejected ixConst metaOne [Json.null] ⟨[F.inf], 1⟩ 1
    rfl rfl (by decide) ⟨F.inf, by simp, rfl⟩

/-- C6: on a successful Ready-state request, the scores of the returned
results are exactly the scores of the searcher pairs whose position lies
inside the catalog, in searcher order: every out-of-range pair (including
the `-1` sentinel) is silently omitted, the request still succeeds, and
no placeholder of any kind is emitted for a dropped pair. -/
theorem out_of_range_dropped
    (ix : IndexFn) (m : Json) (items : List Json) (req : SearchRequest) (d : Int)
    (hitems : m.get "items" = some (Json.arr items))
    (hdim : getDim m = some d) (hdpos : 0 < d)
    (hlen : (req.vector.length : Int) = d)
    (hfin : req.vector.all F.isFinite = true)
    (hnz : normSq (req.vector.map F.toRat) ≠ 0) :
    ∃ rs, search (some ix) (some m) req = Except.ok rs ∧
      rs.map (fun r => r.score) =
        ((ix (req.vector.map F.toRat) (effectiveK req.topK items.length)).filter
          (posInRange items.length)).map Prod.fst :=
  ⟨_, search_ok ix m items req d hitems hdim hdpos hlen hfin hnz,
    scores_filter items _⟩

theorem out_of_range_dropped_witness :
    ∃ rs, search (some ixSentinel) (some metaOne) reqOne = Except.ok rs ∧
      rs.map (fun r => r.score) =
        ((ixSentinel (reqOne.vector.map F.toRat)
          (effectiveK reqOne.topK [Json.null].length)).filter
            (posInRange [Json.null].length)).map Prod.fst :=
  out_of_range_dropped ixSentinel metaOne [Json.null] reqOne 1
    rfl rfl (by decide) rfl rfl (by simp [reqOne, F.toRat, normSq])

/-- C7: every result object emitted by a successful search carries the
same value in its `score` and `similarity` fields. -/
theorem score_eq_similarity
    (index : Option IndexFn) (meta : Option Json) (req : SearchRequest)
    (rs : List ResultItem) (h : search index meta req = Except.ok rs)
    (r : ResultItem) (hr : r ∈ rs) : r.score = r.similarity := by
  obtain ⟨ix, m, items, _, _, _, hrs⟩ := search_ok_inv h
  subst hrs
  obtain ⟨p, _, hp⟩ := List.mem_filterMap.mp hr
  obtain ⟨hs, hsim⟩ := rowToResult_score items p.1 p.2 r hp
  rw [hs, hsim]

theorem score_eq_similarity_witness :
    (nullRow 1).score = (nullRow 1).similarity := by
  have hok : search (some ixConst) (some metaOne) reqOne = Except.ok [nullRow 1] := by
    have h := search_ok ixConst metaOne [Json.null] reqOne 1 rfl rfl (by decide) rfl rfl
      (by simp [reqOne, F.toRat, normSq])
    exact h.trans (by rfl)
  exact score_eq_similarity (some ixConst) (some metaOne) reqOne [nullRow 1] hok
    (nullRow 1) (by simp)

/-- C8 counterexample: a request with `topK = 500` against a ten-item
catalog is rejected by pydantic body validation with a 422 response, so
it is never served at all — in particular it is not served with an
effective K of 10. -/
theorem topk500_rejected_not_served :
    handle (some ixConst) (some metaTen) ⟨[F.fin 1], 500⟩ =
      Except.error ⟨422, "Unprocessable Entity"⟩ := rfl

/-- C8 (amended): for every request that passes body validation
(`1 ≤ topK ≤ 200`) and is served in the Ready state, the K passed to the
index search equals `min topK (catalog size)` — `topK` clamped to the
catalog size, the lower clamp to 1 being vacuous for validated requests.
A request with `topK = 500` is instead rejected with a 422 validation
error before the handler runs. -/
theorem effective_k_clamped
    (ix : IndexFn) (m : Json) (items : List Json) (req : SearchRequest) (d : Int)
    (hitems : m.get "items" = some (Json.arr items))
    (hdim : getDim m = some d) (hdpos : 0 < d)
    (hlen : (req.vector.length : Int) = d)
    (hfin : req.vector.all F.isFinite = true)
    (hnz : normSq (req.vector.map F.toRat) ≠ 0)
    (htk : 1 ≤ req.topK) :
    search (some ix) (some m) req =
      Except.ok ((ix (req.vector.map F.toRat) (min req.topK.toNat items.length)).filterMap
        (fun p => rowToResult items p.1 p.2)) := by
  have h := search_ok ix m items req d hitems hdim hdpos hlen hfin hnz
  rw [effectiveK_min _ _ htk] at h
  exact h

theorem effective_k_clamped_witness :
    search (some ixConst) (some metaOne) reqOne =
      Except.ok ((ixConst (reqOne.vector.map F.toRat)
        (min reqOne.topK.toNat [Json.null].length)).filterMap
          (fun p => rowToResult [Json.null] p.1 p.2)) :=
  effective_k_clamped ixConst metaOne [Json.null] reqOne 1
    rfl rfl (by decide) rfl rfl (by simp [reqOne, F.toRat, normSq]) (by decide)

/-- C9 counterexample: `metaBadItems` carries an `items` key holding a
number, so it is not a JSON object containing an `items` array; yet
`_load_assets` raises no validation error and the service transitions to
the Ready state. -/
theorem items_nonarray_load_succeeds :
    hasItemsArray metaBadItems = false ∧
    loadAssets (some ixConst) (some metaBadItems) = Except.ok (ixConst, metaBadItems) ∧
    startupState (some ixConst) (some metaBadItems) = some (ixConst, metaBadItems) :=
  ⟨rfl, rfl, rfl⟩

/-- C9 (amended): the startup validation fails — with the exact message
of line 42 — whenever the parsed metadata document is not a JSON object
containing an `items` key (the value of the key is not inspected at load
time); on such a failure the service never transitions to Ready, and a
search request dispatched against the resulting state is rejected with
the 500 Index-not-loaded server error. -/
theorem load_validation_and_uninitialized
    (ix : IndexFn) (meta : Json) (req : SearchRequest)
    (h : metaWellFormed meta = false) :
    loadAssets (some ix) (some meta) =
      Except.error "meta.json must be an object with an \x27items\x27 field" ∧
    startupState (some ix) (some meta) = none ∧
    serve (startupState (some ix) (some meta)) req =
      Except.error ⟨500, "Index not loaded"⟩ := by
  have h1 : loadAssets (some ix) (some meta) =
      Except.error "meta.json must be an object with an \x27items\x27 field" := by
    simp [loadAssets, h]
  have h2 : startupState (some ix) (some meta) = none := by
    simp [startupState, h1, Except.toOption]
  refine ⟨h1, h2, ?_⟩
  rw [h2]
  rfl

theorem load_validation_and_uninitialized_witness :
    loadAssets (some ixConst) (some (Json.num 3)) =
      Except.error "meta.json must be an object with an \x27items\x27 field" ∧
    startupState (some ixConst) (some (Json.num 3)) = none ∧
    serve (startupState (some ixConst) (some (Json.num 3))) reqOne =
      Except.error ⟨500, "Index not loaded"⟩ :=
  load_validation_and_uninitialized ixConst (Json.num 3) reqOne rfl

/-- C10: when the searcher returns an in-range position whose catalog
entry is not a JSON object, the handler still succeeds and still emits a
result row for that neighbor, with all eight metadata fields null and the
score duplicated into `score` and `similarity`, rather than dropping the
neighbor or failing the request. -/
theorem nondict_item_yields_nulls
    (ix : IndexFn) (m : Json) (items : List Json) (req : SearchRequest) (d : Int)
    (hitems : m.get "items" = some (Json.arr items))
    (hdim : getDim m = some d) (hdpos : 0 < d)
    (hlen : (req.vector.length : Int) = d)
    (hfin : req.vector.all F.isFinite = true)
    (hnz : normSq (req.vector.map F.toRat) ≠ 0)
    (s : ℚ) (i : Int)
    (hmem : (s, i) ∈ ix (req.vector.map F.toRat) (effectiveK req.topK items.length))
    (h0 : 0 ≤ i) (h1 : i < (items.length : Int))
    (hnd : ∀ fs, items[i.toNat]? ≠ some (Json.obj fs)) :
    ∃ rs, search (some ix) (some m) req = Except.ok rs ∧ nullRow s ∈ rs := by
  refine ⟨_, search_ok ix m items req d hitems hdim hdpos hlen hfin hnz, ?_⟩
  exact List.mem_filterMap.mpr ⟨(s, i), hmem, rowToResult_nondict items s i h0 h1 hnd⟩

theorem nondict_item_yields_nulls_witness :
    ∃ rs, search (some ixHitZero) (some metaNonDict) reqOne = Except.ok rs ∧
      nullRow 2 ∈ rs :=
  nondict_item_yields_nulls ixHitZero metaNonDict [Json.num 7] reqOne 1
    rfl rfl (by decide) rfl rfl (by simp [reqOne, F.toRat, normSq])
    2 0 (by simp [ixHitZero]) (by decide) (by decide)
    (fun fs h => by injection h with h2; exact Json.noConfusion h2)

end VectorService
